import Mathlib

/-!
Verification development for the LiquidSky repository's project-file
manipulation scripts.  The Python sources are shallowly embedded: file
contents are `List Char`, the regular-expression substitutions of the
scripts are modelled by specialised matchers with the same semantics on
the patterns actually used (leftmost match, lazy `[\s\S]*?` scanning,
greedy `\s*` runs), the random UUID allocator is modelled as a function
of its 128-bit random draw, and the object graphs emitted by the
generator scripts are modelled as node lists with explicit reference
fields.
-/

set_option maxRecDepth 20000
set_option maxHeartbeats 4000000

/-! ## Basic string machinery shared by all script models -/

/-- The ASCII whitespace characters recognised by Python's `str.strip()`
and by the regex class `\s` on ASCII input. -/
def pyIsSpace (c : Char) : Bool :=
  c = ' ' || c = '\t' || c = '\n' || c = '\r' || c = '\x0b' || c = '\x0c'

/-- Python's `str.strip()` on a character list: drop whitespace from both
ends. -/
def stripChars (l : List Char) : List Char :=
  ((l.dropWhile pyIsSpace).reverse.dropWhile pyIsSpace).reverse

/-! ## fix_module_imports.py

The per-file content transformation of `fix_module_imports` (lines
45-74): split the content on newlines, drop every line that, once
stripped, starts with the eight characters of an import keyword plus a
space and whose remainder (after index 7, stripped again) is one of the
internal module names, and join the survivors with newlines. -/

/-- The `internal_modules` set from fix_module_imports.py lines 12-27. -/
def internal_modules : List (List Char) :=
  ["AuthUI", "ChatUI", "ComposerUI", "DesignSystem", "FeedUI", "MediaUI",
   "NotificationsUI", "PostUI", "ProfileUI", "SettingsUI", "Client",
   "Models", "User", "Destinations"].map String.toList

/-- The literal prefix tested by `stripped.startswith` in
fix_module_imports.py line 60. -/
def importKeywordLit : List Char := "import ".toList

/-- The per-line predicate of fix_module_imports.py lines 60-65: the
stripped line starts with the keyword-plus-space prefix and the text
after position 7, stripped, is in `internal_modules`. -/
def isInternalImport (line : List Char) : Bool :=
  let stripped := stripChars line
  importKeywordLit.isPrefixOf stripped &&
    internal_modules.contains (stripChars (stripped.drop 7))

/-- Python's `content.split('\n')`: always returns at least one piece. -/
def splitNl : List Char → List (List Char)
  | [] => [[]]
  | c :: cs =>
    if c = '\n' then [] :: splitNl cs
    else
      match splitNl cs with
      | [] => [[c]]
      | h :: t => (c :: h) :: t

/-- Python's `'\n'.join(lines)`. -/
def joinNl : List (List Char) → List Char
  | [] => []
  | [l] => l
  | l :: ls => l ++ '\n' :: joinNl ls

/-- The content transformation of fix_module_imports.py lines 53-71:
filter out internal-module import lines and rejoin. -/
def fix_module_imports (content : List Char) : List Char :=
  joinNl ((splitNl content).filter (fun l => !isInternalImport l))

theorem splitNl_ne_nil (c : List Char) : splitNl c ≠ [] := by
  induction c with
  | nil => simp [splitNl]
  | cons x xs ih =>
    simp only [splitNl]
    split
    · simp
    · split
      · simp
      · simp

theorem mem_splitNl_no_newline (c : List Char) :
    ∀ l ∈ splitNl c, '\n' ∉ l := by
  induction c with
  | nil =>
    intro l hl
    simp [splitNl] at hl
    simp [hl]
  | cons x xs ih =>
    intro l hl
    simp only [splitNl] at hl
    split at hl
    · rcases List.mem_cons.mp hl with h | h
      · simp [h]
      · exact ih l h
    · rename_i hx
      rcases hres : splitNl xs with _ | ⟨h0, t0⟩
      · exact absurd hres (splitNl_ne_nil xs)
      · rw [hres] at hl
        rcases List.mem_cons.mp hl with h | h
        · subst h
          intro hmem
          rcases List.mem_cons.mp hmem with h' | h'
          · exact hx h'.symm
          · exact ih h0 (by rw [hres]; exact List.mem_cons_self _ _) h'
        · exact ih l (by rw [hres]; exact List.mem_cons_of_mem _ h)

theorem splitNl_single (l : List Char) (h : '\n' ∉ l) : splitNl l = [l] := by
  induction l with
  | nil => rfl
  | cons x xs ih =>
    have hx : ¬ (x = '\n') := fun hc => h (by simp [hc])
    have hxs : '\n' ∉ xs := fun hc => h (List.mem_cons_of_mem _ hc)
    simp only [splitNl, if_neg hx, ih hxs]

theorem splitNl_append_cons (l rest : List Char) (h : '\n' ∉ l) :
    splitNl (l ++ '\n' :: rest) = l :: splitNl rest := by
  induction l with
  | nil => simp [splitNl]
  | cons x xs ih =>
    have hx : ¬ (x = '\n') := fun hc => h (by simp [hc])
    have hxs : '\n' ∉ xs := fun hc => h (List.mem_cons_of_mem _ hc)
    show splitNl (x :: (xs ++ '\n' :: rest)) = (x :: xs) :: splitNl rest
    simp only [splitNl, if_neg hx]
    rw [ih hxs]

theorem splitNl_joinNl (ls : List (List Char)) (hne : ls ≠ [])
    (hnl : ∀ l ∈ ls, '\n' ∉ l) : splitNl (joinNl ls) = ls := by
  induction ls with
  | nil => exact absurd rfl hne
  | cons l ls ih =>
    cases ls with
    | nil =>
      simp only [joinNl]
      exact splitNl_single l (hnl l (List.mem_cons_self _ _))
    | cons l' ls' =>
      have h1 : '\n' ∉ l := hnl l (List.mem_cons_self _ _)
      have h2 : ∀ m ∈ l' :: ls', '\n' ∉ m :=
        fun m hm => hnl m (List.mem_cons_of_mem _ hm)
      simp only [joinNl, splitNl_append_cons l _ h1]
      rw [ih (by simp) h2]

/-- C9 (amended): the import-fixing content transformation removes exactly
those lines accepted by the code's predicate (`isInternalImport`: the
stripped line starts with the keyword prefix and the remainder after
index 7, stripped, lies in the internal-module set), keeps every other
line unchanged and in order, and is idempotent.  The line-level
characterisation needs the surviving line list to be nonempty, because
Python's split turns the empty joined string back into one empty line. -/
theorem fix_module_imports_spec (content : List Char) :
    fix_module_imports (fix_module_imports content) = fix_module_imports content ∧
    ((splitNl content).filter (fun l => !isInternalImport l) ≠ [] →
      splitNl (fix_module_imports content) =
        (splitNl content).filter (fun l => !isInternalImport l)) := by
  have hchar : ∀ l ∈ (splitNl content).filter (fun l => !isInternalImport l), '\n' ∉ l :=
    fun l hl => mem_splitNl_no_newline content l (List.mem_of_mem_filter hl)
  constructor
  · rcases hcase : (splitNl content).filter (fun l => !isInternalImport l) with _ | ⟨k, ks⟩
    · simp only [fix_module_imports, hcase, joinNl]
    · have hsplit : splitNl (fix_module_imports content) = k :: ks := by
        simpa only [fix_module_imports, hcase] using
          splitNl_joinNl (k :: ks) (by simp) (by rw [← hcase]; exact hchar)
      have hall : ∀ l ∈ k :: ks, (fun l => !isInternalImport l) l = true := by
        intro l hl
        exact List.of_mem_filter (p := fun l => !isInternalImport l) (by rw [hcase]; exact hl)
      calc fix_module_imports (fix_module_imports content)
          = joinNl ((k :: ks).filter (fun l => !isInternalImport l)) := by
            rw [fix_module_imports, hsplit]
        _ = joinNl (k :: ks) := by rw [List.filter_eq_self.mpr hall]
        _ = fix_module_imports content := by rw [fix_module_imports, hcase]
  · intro hne
    rw [fix_module_imports]
    exact splitNl_joinNl _ hne hchar

/-- Witness for `fix_module_imports_spec` at a concrete two-line file. -/
theorem fix_module_imports_spec_witness :
    splitNl (fix_module_imports ("import Foundation\nimport Client").toList) =
      (splitNl ("import Foundation\nimport Client").toList).filter
        (fun l => !isInternalImport l) :=
  (fix_module_imports_spec _).2 (by decide)

/-- The predicate the claim literally states: the stripped line is the
keyword prefix followed immediately by an internal module name. -/
def claimedImportLine (line : List Char) : Bool :=
  internal_modules.any (fun m => stripChars line == importKeywordLit ++ m)

/-- C9 counterexample: on the one-line file with two spaces between the
keyword and the module name, the code removes the line although its
stripped form is not literally the keyword prefix plus a module name, so
the surviving lines are not those the claim describes. -/
theorem fix_module_imports_counterexample :
    ¬ (splitNl (fix_module_imports ("import  Client").toList) =
        (splitNl ("import  Client").toList).filter (fun l => !claimedImportLine l)) := by
  decide

/-! ## Literal search: the model of Python substring membership and of the
anchored-literal part of the scripts' regular expressions.

`findLit lit s` splits `s` at the leftmost occurrence of the literal
`lit`, returning the text before the occurrence and the text after it,
exactly as Python's `str.find`/`in` and as an `re` literal scanned from
the left. -/

/-- Tail-recursive scanner behind `findLit`; `acc` holds the already
scanned prefix in reverse. -/
def findLitGo (lit : List Char) : List Char → List Char → Option (List Char × List Char)
  | acc, [] => if lit.isPrefixOf [] then some (acc.reverse, []) else none
  | acc, c :: cs =>
    if lit.isPrefixOf (c :: cs) then some (acc.reverse, (c :: cs).drop lit.length)
    else findLitGo lit (c :: acc) cs

def findLit (lit s : List Char) : Option (List Char × List Char) := findLitGo lit [] s

/-- Python's `lit in s` substring test. -/
def containsLit (lit s : List Char) : Bool := (findLit lit s).isSome

theorem isPrefixOf_eq_append (l : List Char) :
    ∀ s : List Char, l.isPrefixOf s = true → s = l ++ s.drop l.length := by
  induction l with
  | nil => intro s _; simp
  | cons x xs ih =>
    intro s h
    cases s with
    | nil => simp [List.isPrefixOf] at h
    | cons y ys =>
      simp only [List.isPrefixOf, Bool.and_eq_true, beq_iff_eq] at h
      obtain ⟨h1, h2⟩ := h
      subst h1
      simp only [List.cons_append, List.length_cons, List.drop_succ_cons]
      exact congrArg (List.cons x) (ih ys h2)

theorem isPrefixOf_append_self (l t : List Char) :
    l.isPrefixOf (l ++ t) = true := by
  induction l with
  | nil => simp
  | cons x xs ih => simp [List.isPrefixOf, ih]

theorem findLitGo_some (lit : List Char) :
    ∀ (s acc b a : List Char), findLitGo lit acc s = some (b, a) →
      acc.reverse ++ s = b ++ lit ++ a := by
  intro s
  induction s with
  | nil =>
    intro acc b a h
    simp only [findLitGo] at h
    split at h
    · rename_i hp
      cases lit with
      | nil =>
        simp only [Option.some.injEq, Prod.mk.injEq] at h
        obtain ⟨h1, h2⟩ := h
        subst h1; subst h2
        simp
      | cons x xs => simp [List.isPrefixOf] at hp
    · simp at h
  | cons c cs ih =>
    intro acc b a h
    simp only [findLitGo] at h
    split at h
    · rename_i hp
      simp only [Option.some.injEq, Prod.mk.injEq] at h
      obtain ⟨h1, h2⟩ := h
      subst h1; subst h2
      conv_lhs => rw [isPrefixOf_eq_append lit (c :: cs) hp]
      simp [List.append_assoc]
    · have := ih (c :: acc) b a h
      simpa [List.reverse_cons, List.append_assoc] using this

theorem findLit_some (lit : List Char) :
    ∀ (s b a : List Char), findLit lit s = some (b, a) → s = b ++ lit ++ a := by
  intro s b a h
  simpa using findLitGo_some lit s [] b a h

theorem findLit_some_length (lit s b a : List Char) (hlit : lit ≠ [])
    (h : findLit lit s = some (b, a)) : a.length < s.length := by
  have hs := findLit_some lit s b a h
  have hl : 0 < lit.length := List.length_pos.mpr hlit
  rw [hs]
  simp only [List.append_assoc, List.length_append]
  omega

theorem containsLit_of_isPrefixOf (lit s : List Char)
    (h : lit.isPrefixOf s = true) : containsLit lit s = true := by
  cases s with
  | nil => simp [containsLit, findLit, findLitGo, h]
  | cons c cs => simp [containsLit, findLit, findLitGo, h]

theorem findLitGo_isSome_of_parts (lit q : List Char) :
    ∀ (p acc : List Char), (findLitGo lit acc (p ++ lit ++ q)).isSome = true := by
  intro p
  induction p with
  | nil =>
    intro acc
    simp only [List.nil_append]
    have hp : lit.isPrefixOf (lit ++ q) = true := isPrefixOf_append_self lit q
    cases hlq : lit ++ q with
    | nil =>
      rw [hlq] at hp
      simp [findLitGo, hp]
    | cons x xs =>
      rw [hlq] at hp
      simp [findLitGo, hp]
  | cons y p' ih =>
    intro acc
    simp only [List.cons_append]
    simp only [findLitGo]
    split
    · simp
    · exact ih (y :: acc)

theorem containsLit_of_parts (lit p q : List Char) :
    containsLit lit (p ++ lit ++ q) = true :=
  findLitGo_isSome_of_parts lit q p []

theorem mem_of_containsLit (lit s : List Char) (h : containsLit lit s = true)
    (c : Char) (hc : c ∈ lit) : c ∈ s := by
  rw [containsLit] at h
  rcases hf : findLit lit s with _ | ⟨b, a⟩
  · rw [hf] at h; simp at h
  · have := findLit_some lit s b a hf
    rw [this]
    simp only [List.append_assoc, List.mem_append]
    exact Or.inr (Or.inl hc)

theorem containsLit_trans (inner outer s : List Char)
    (h1 : containsLit inner outer = true) (h2 : containsLit outer s = true) :
    containsLit inner s = true := by
  rw [containsLit] at h1 h2
  rcases hf : findLit outer s with _ | ⟨b, a⟩
  · rw [hf] at h2; simp at h2
  · rcases hg : findLit inner outer with _ | ⟨b', a'⟩
    · rw [hg] at h1; simp at h1
    · have hs := findLit_some outer s b a hf
      have ho := findLit_some inner outer b' a' hg
      rw [hs, ho]
      have : b ++ (b' ++ inner ++ a') ++ a = (b ++ b') ++ inner ++ (a' ++ a) := by
        simp [List.append_assoc]
      rw [this]
      exact containsLit_of_parts inner (b ++ b') (a' ++ a)

/-! ## generate_uuid (modify_horizon_project.py lines 7-9 and
convert_to_xcodeproj.py lines 17-20)

`str(uuid.uuid4()).upper().replace('-', '')`: a 128-bit random draw is
formatted as 32 hexadecimal digits (uuid4 forces the 13th digit to `4`
and the 17th digit to `8 + (two random bits)`), uppercased, dashes
removed.  The random draw is the explicit argument `r`; the allocator
never looks at the loaded document. -/

/-- `w` base-16 digits of `n`, least significant first. -/
def nibbles : Nat → Nat → List Nat
  | 0, _ => []
  | w + 1, n => n % 16 :: nibbles w (n / 16)

/-- Uppercase hexadecimal digit characters, as produced by
`str(uuid4()).upper()`. -/
def hexDigitChar (d : Nat) : Char :=
  if d < 10 then Char.ofNat (48 + d) else Char.ofNat (55 + d)

/-- The 32 hex digits (most significant first) of a version-4 UUID built
from the 128-bit random draw `r`: digit 12 is forced to `4` (the version
field) and digit 16 to `8 + (low two bits)` (the variant field). -/
def uuid4Nibbles (r : Nat) : List Nat :=
  let ds := (nibbles 32 r).reverse
  (ds.set 12 4).set 16 (8 + ds.getD 16 0 % 4)

/-- The model of `generate_uuid`. -/
def generate_uuid (r : Nat) : List Char := (uuid4Nibbles r).map hexDigitChar

/-- The sixteen characters a `generate_uuid` identifier can contain. -/
def hexUpperChars : List Char := "0123456789ABCDEF".toList

theorem nibbles_lt (w : Nat) : ∀ (n : Nat), ∀ d ∈ nibbles w n, d < 16 := by
  induction w with
  | zero => intro n d hd; simp [nibbles] at hd
  | succ w ih =>
    intro n d hd
    simp only [nibbles, List.mem_cons] at hd
    rcases hd with h | h
    · subst h; exact Nat.mod_lt _ (by omega)
    · exact ih (n / 16) d h

theorem length_nibbles (w : Nat) : ∀ n, (nibbles w n).length = w := by
  induction w with
  | zero => intro n; rfl
  | succ w ih => intro n; simp [nibbles, ih]

theorem uuid4Nibbles_lt (r : Nat) : ∀ d ∈ uuid4Nibbles r, d < 16 := by
  intro d hd
  simp only [uuid4Nibbles] at hd
  rcases List.mem_or_eq_of_mem_set hd with hd' | h
  · rcases List.mem_or_eq_of_mem_set hd' with hd'' | h'
    · exact nibbles_lt 32 r d (List.mem_reverse.mp hd'')
    · omega
  · have : (nibbles 32 r).reverse.getD 16 0 % 4 < 4 := Nat.mod_lt _ (by omega)
    omega

theorem generate_uuid_length (r : Nat) : (generate_uuid r).length = 32 := by
  simp [generate_uuid, uuid4Nibbles, length_nibbles]

theorem hexDigitChar_inj :
    ∀ d, d < 16 → ∀ e, e < 16 → hexDigitChar d = hexDigitChar e → d = e := by
  decide

theorem hexDigitChar_mem : ∀ d, d < 16 → hexDigitChar d ∈ hexUpperChars := by
  decide

theorem map_hexDigitChar_inj :
    ∀ (ds : List Nat), (∀ d ∈ ds, d < 16) →
      ∀ (es : List Nat), (∀ e ∈ es, e < 16) →
        ds.map hexDigitChar = es.map hexDigitChar → ds = es := by
  intro ds
  induction ds with
  | nil =>
    intro _ es _ h
    cases es with
    | nil => rfl
    | cons e es' => simp at h
  | cons d ds' ih =>
    intro hds es hes h
    cases es with
    | nil => simp at h
    | cons e es' =>
      simp only [List.map_cons, List.cons.injEq] at h
      obtain ⟨h1, h2⟩ := h
      have hd := hds d (List.mem_cons_self _ _)
      have he := hes e (List.mem_cons_self _ _)
      have hde := hexDigitChar_inj d hd e he h1
      have htl := ih (fun x hx => hds x (List.mem_cons_of_mem _ hx)) es'
        (fun x hx => hes x (List.mem_cons_of_mem _ hx)) h2
      rw [hde, htl]

theorem generate_uuid_mem_hex (r : Nat) :
    ∀ c ∈ generate_uuid r, c ∈ hexUpperChars := by
  intro c hc
  simp only [generate_uuid, List.mem_map] at hc
  obtain ⟨d, hd, hdc⟩ := hc
  subst hdc
  exact hexDigitChar_mem d (uuid4Nibbles_lt r d hd)

/-- C8 (amended): the allocator formats its random draw injectively —
two identifiers produced from draws with distinct adjusted digit strings
are distinct — and always yields a 32-character string over the
hexadecimal uppercase alphabet.  It never inspects the loaded document,
so disjointness from identifiers already on disk is only probabilistic,
not guaranteed (see the counterexample). -/
theorem generate_uuid_spec (r r' : Nat) (h : uuid4Nibbles r ≠ uuid4Nibbles r') :
    generate_uuid r ≠ generate_uuid r' ∧
    (generate_uuid r).length = 32 ∧
    ∀ c ∈ generate_uuid r, c ∈ hexUpperChars := by
  refine ⟨?_, generate_uuid_length r, generate_uuid_mem_hex r⟩
  intro hcon
  exact h (map_hexDigitChar_inj _ (uuid4Nibbles_lt r) _ (uuid4Nibbles_lt r') hcon)

/-- Witness for `generate_uuid_spec` at the draws 0 and 1. -/
theorem generate_uuid_spec_witness :
    generate_uuid 0 ≠ generate_uuid 1 ∧
    (generate_uuid 0).length = 32 ∧
    ∀ c ∈ generate_uuid 0, c ∈ hexUpperChars :=
  generate_uuid_spec 0 1 (by decide)

/-- C8 counterexample: the claim that the allocator's output is never
equal to an identifier already present in a loaded document, and that two
outputs within one session are always distinct, is false for the code: the
draw is uniform random and no check against the document is made, so the
loaded document may already contain the very identifier a draw produces
(here: a document whose identifier set contains `generate_uuid 0`, met by
the draw 0). -/
theorem generate_uuid_counterexample :
    ¬ ((∀ (existing : List (List Char)) (r : Nat), generate_uuid r ∉ existing) ∧
       (∀ r1 r2 : Nat, generate_uuid r1 ≠ generate_uuid r2)) :=
  fun h => h.1 [generate_uuid 0] 0 (List.mem_singleton.mpr rfl)

/-! ## get_product_name (modify_horizon_project.py lines 145-164)

The helper receives a generated product UUID (and the `packages` list,
which it never uses: the `product_names` dictionary in its body is dead)
and tests fixed name fragments for substring membership in the UUID. -/

/-- The model of `get_product_name`.  The unused `packages` argument of
the source is omitted; the body is the literal chained conditional of
lines 159-164. -/
def get_product_name (product_uuid : List Char) : List Char :=
  if containsLit ("ATProtoKit".toList) product_uuid then "ATProtoKit".toList
  else if containsLit ("keychain".toList) product_uuid then "KeychainSwift".toList
  else if containsLit ("AppRouter".toList) product_uuid then "AppRouter".toList
  else if containsLit ("Nuke".toList) product_uuid then "Nuke".toList
  else if containsLit ("ViewInspector".toList) product_uuid then "ViewInspector".toList
  else if containsLit ("AcknowList".toList) product_uuid then "AcknowList".toList
  else "Package".toList

/-- The product names actually recorded in the `productName` fields the
scripts emit (modify_horizon_project.py lines 21-52 and 73-97). -/
def actual_product_names : List (List Char) :=
  ["ATProtoKit", "KeychainSwift", "AppRouter", "Nuke", "NukeUI",
   "ViewInspector", "AcknowList"].map String.toList

/-- C10: for every identifier the allocator can produce, every tested
name fragment contains a character outside the uppercase-hexadecimal
alphabet, so `get_product_name` falls through to the fallback
`"Package"`; and `"Package"` differs from every actual product name, so
the serialized inline comments built from `get_product_name` never equal
the actual product names. -/
theorem get_product_name_of_uuid (r : Nat) :
    get_product_name (generate_uuid r) = "Package".toList ∧
    actual_product_names.contains ("Package".toList) = false := by
  have hhex := generate_uuid_mem_hex r
  have key : ∀ (lit : List Char) (x : Char), x ∈ lit → x ∉ hexUpperChars →
      containsLit lit (generate_uuid r) = false := by
    intro lit x hx hnx
    by_contra hcon
    rw [Bool.not_eq_false] at hcon
    exact hnx (hhex x (mem_of_containsLit lit _ hcon x hx))
  have h1 := key ("ATProtoKit".toList) 'T' (by decide) (by decide)
  have h2 := key ("keychain".toList) 'k' (by decide) (by decide)
  have h3 := key ("AppRouter".toList) 'p' (by decide) (by decide)
  have h4 := key ("Nuke".toList) 'u' (by decide) (by decide)
  have h5 := key ("ViewInspector".toList) 'V' (by decide) (by decide)
  have h6 := key ("AcknowList".toList) 'c' (by decide) (by decide)
  refine ⟨?_, by decide⟩
  simp only [get_product_name, h1, h2, h3, h4, h5, h6]
  simp

/-! ## add_frameworks.py: add_framework_dependencies (lines 6-86)

The script applies
`re.sub(r'(1D1A9BBB... /\* Frameworks \*/ = \{[\s\S]*?files = \()(\s*\);[\s\S]*?\};)', repl, content)`
and then, when the marker id `1D60000F22D4FAF6008BF43F` is still absent,
inserts PBXBuildFile entries after every `/* Begin PBXBuildFile section */`
line.  The regex is modelled exactly on its pattern shape: the match is
anchored at the header literal, the lazy `[\s\S]*?` walks to successive
occurrences of `files = (`, and the tail group requires optional
whitespace followed by `);` and then lazily extends to the next `};`. -/

def frameworksHeaderLit : List Char :=
  "1D1A9BBB2E761986002B8F85 /* Frameworks */ = \x7b".toList

def filesOpenLit : List Char := "files = (".toList

def parenSemiLit : List Char := ");".toList

def braceSemiLit : List Char := "\x7d;".toList

/-- The `framework_files` list of add_frameworks.py lines 18-24. -/
def framework_files : List (List Char) :=
  ["\t\t\t\t1D60000F22D4FAF6008BF43F /* UIKit.framework in Frameworks */,",
   "\t\t\t\t1D60001022D4FAF6008BF43F /* Foundation.framework in Frameworks */,",
   "\t\t\t\t1D60001122D4FAF6008BF43F /* SwiftUI.framework in Frameworks */,",
   "\t\t\t\t1D60001222D4FAF6008BF43F /* Combine.framework in Frameworks */,",
   "\t\t\t\t1D60001322D4FAF6008BF43F /* CoreData.framework in Frameworks */,"].map
    String.toList

/-- The `package_products` list of add_frameworks.py lines 27-35. -/
def package_products : List (List Char) :=
  ["\t\t\t\t1D60001422D4FAF6008BF43F /* ATProtoKit in Frameworks */,",
   "\t\t\t\t1D60001522D4FAF6008BF43F /* KeychainSwift in Frameworks */,",
   "\t\t\t\t1D60001622D4FAF6008BF43F /* AppRouter in Frameworks */,",
   "\t\t\t\t1D60001722D4FAF6008BF43F /* Nuke in Frameworks */,",
   "\t\t\t\t1D60001822D4FAF6008BF43F /* NukeUI in Frameworks */,",
   "\t\t\t\t1D60001922D4FAF6008BF43F /* ViewInspector in Frameworks */,",
   "\t\t\t\t1D60001A22D4FAF6008BF43F /* AcknowList in Frameworks */,"].map
    String.toList

/-- The replacement payload of `replace_frameworks` (lines 37-47):
framework section, a newline, package section, spliced between the two
regex groups. -/
def frameworksInsertText : List Char :=
  joinNl framework_files ++ '\n' :: joinNl package_products

/-- Match of the group-2 head `\s*\);` followed by the lazy `[\s\S]*?\};`:
take the whitespace run, require the literal `);`, then cut at the next
`};`.  Returns the full group-2 text and the remainder after the match. -/
def checkTail (a : List Char) : Option (List Char × List Char) :=
  let ws := a.takeWhile pyIsSpace
  let a' := a.dropWhile pyIsSpace
  if parenSemiLit.isPrefixOf a' then
    match findLit braceSemiLit (a'.drop 2) with
    | some (m, t) => some (ws ++ parenSemiLit ++ m ++ braceSemiLit, t)
    | none => none
  else none


theorem checkTail_some (a g2 t : List Char) (h : checkTail a = some (g2, t)) :
    a = g2 ++ t ∧
    ∃ ws m, g2 = ws ++ parenSemiLit ++ m ++ braceSemiLit ∧ ws.all pyIsSpace = true := by
  simp only [checkTail] at h
  split at h
  · rename_i hp
    rcases hm : findLit braceSemiLit ((a.dropWhile pyIsSpace).drop 2) with _ | ⟨m, t'⟩
    · rw [hm] at h; simp at h
    · rw [hm] at h
      simp only [Option.some.injEq, Prod.mk.injEq] at h
      obtain ⟨h1, h2⟩ := h
      subst h1; subst h2
      have hsplit : a.takeWhile pyIsSpace ++ a.dropWhile pyIsSpace = a :=
        List.takeWhile_append_dropWhile _ _
      have hpref := isPrefixOf_eq_append parenSemiLit (a.dropWhile pyIsSpace) hp
      have hfind := findLit_some braceSemiLit _ m t' hm
      constructor
      · conv_lhs => rw [← hsplit, hpref]
        have h2len : (a.dropWhile pyIsSpace).drop parenSemiLit.length =
            (a.dropWhile pyIsSpace).drop 2 := rfl
        rw [h2len, hfind]
        simp [List.append_assoc]
      · refine ⟨a.takeWhile pyIsSpace, m, rfl, ?_⟩
        rw [List.all_eq_true]
        intro x hx
        exact List.mem_takeWhile_imp hx
  · simp at h

/-- The lazy scan of `[\s\S]*?files = \(` inside a candidate match: try
successive occurrences of `files = (`; at each, attempt the group-2
match; on failure continue behind the occurrence, as regex backtracking
does (the literal cannot overlap itself).  The fuel argument only bounds
the recursion; `searchFiles` supplies enough for it never to run out. -/
def searchFilesF : Nat → List Char → Option (List Char × List Char × List Char)
  | 0, _ => none
  | fuel + 1, s =>
    match findLit filesOpenLit s with
    | none => none
    | some (b, a) =>
      match checkTail a with
      | some (g2, t) => some (b ++ filesOpenLit, g2, t)
      | none =>
        match searchFilesF fuel a with
        | some (g1r, g2, t) => some (b ++ filesOpenLit ++ g1r, g2, t)
        | none => none

def searchFiles (s : List Char) : Option (List Char × List Char × List Char) :=
  searchFilesF (s.length + 1) s

theorem searchFilesF_some :
    ∀ (fuel : Nat) (s g1r g2 t : List Char),
      searchFilesF fuel s = some (g1r, g2, t) →
        s = g1r ++ g2 ++ t ∧
        (∃ b, g1r = b ++ filesOpenLit) ∧
        (∃ ws m, g2 = ws ++ parenSemiLit ++ m ++ braceSemiLit ∧
          ws.all pyIsSpace = true) := by
  intro fuel
  induction fuel with
  | zero => intro s g1r g2 t h; simp [searchFilesF] at h
  | succ fuel ih =>
    intro s g1r g2 t h
    simp only [searchFilesF] at h
    split at h
    · simp at h
    · rename_i b a hf
      split at h
      · rename_i g2' t' hct
        simp only [Option.some.injEq, Prod.mk.injEq] at h
        obtain ⟨h1, h2, h3⟩ := h
        subst h1; subst h2; subst h3
        obtain ⟨hat, ws, m, hg2, hws⟩ := checkTail_some a _ _ hct
        refine ⟨?_, ⟨b, rfl⟩, ws, m, hg2, hws⟩
        rw [findLit_some filesOpenLit s b a hf, hat]
        simp [List.append_assoc]
      · split at h
        · rename_i g1r' g2' t' hrec
          simp only [Option.some.injEq, Prod.mk.injEq] at h
          obtain ⟨h1, h2, h3⟩ := h
          subst h1; subst h2; subst h3
          obtain ⟨heq, ⟨b', hb'⟩, hg2⟩ := ih a g1r' g2' t' hrec
          refine ⟨?_, ⟨b ++ filesOpenLit ++ b', by rw [hb']; simp [List.append_assoc]⟩, hg2⟩
          rw [findLit_some filesOpenLit s b a hf, heq]
          simp [List.append_assoc]
        · simp at h

theorem searchFiles_some (s g1r g2 t : List Char)
    (h : searchFiles s = some (g1r, g2, t)) :
    s = g1r ++ g2 ++ t ∧
    (∃ b, g1r = b ++ filesOpenLit) ∧
    (∃ ws m, g2 = ws ++ parenSemiLit ++ m ++ braceSemiLit ∧
      ws.all pyIsSpace = true) :=
  searchFilesF_some (s.length + 1) s g1r g2 t h

theorem searchFiles_tail_length (s g1r g2 t : List Char)
    (h : searchFiles s = some (g1r, g2, t)) : t.length < s.length := by
  obtain ⟨heq, ⟨b, hb⟩, ws, m, hg2, _⟩ := searchFiles_some s g1r g2 t h
  rw [heq, hb, hg2]
  simp only [List.append_assoc, List.length_append]
  have h1 : 0 < filesOpenLit.length := by decide
  have h2 : 0 < parenSemiLit.length := by decide
  omega

/-- The full substitution of add_frameworks.py line 50: at every
non-overlapping match of the frameworks pattern (anchored at the header
literal), splice the insert text between group 1 and group 2 and go on
scanning behind the match, as `re.sub` does.  Fuel-bounded recursion;
`subFrameworks` supplies enough fuel for it never to run out. -/
def subFrameworksF : Nat → List Char → List Char
  | 0, s => s
  | fuel + 1, s =>
    match findLit frameworksHeaderLit s with
    | none => s
    | some (pre, rest) =>
      match searchFiles rest with
      | some (g1r, g2, tail) =>
        pre ++ frameworksHeaderLit ++ g1r ++ frameworksInsertText ++ g2 ++
          subFrameworksF fuel tail
      | none => pre ++ frameworksHeaderLit ++ subFrameworksF fuel rest

def subFrameworks (s : List Char) : List Char := subFrameworksF (s.length + 1) s

/-- Whether the frameworks pattern of add_frameworks.py line 15 matches
anywhere in `s`, with the same scanning scheme as `subFrameworksF`. -/
def hasFrameworksMatchF : Nat → List Char → Bool
  | 0, _ => false
  | fuel + 1, s =>
    match findLit frameworksHeaderLit s with
    | none => false
    | some (_, rest) =>
      match searchFiles rest with
      | some _ => true
      | none => hasFrameworksMatchF fuel rest

def hasFrameworksMatch (s : List Char) : Bool := hasFrameworksMatchF (s.length + 1) s

/-- `re.sub` with a plain literal pattern and a `\1`-plus-payload
replacement (add_frameworks.py line 82): insert the payload after every
occurrence of the literal.  Fuel-bounded; `insertAfterAll` supplies
enough fuel. -/
def insertAfterAllF : Nat → List Char → List Char → List Char → List Char
  | 0, _, _, s => s
  | fuel + 1, lit, ins, s =>
    match findLit lit s with
    | none => s
    | some (pre, rest) => pre ++ lit ++ ins ++ insertAfterAllF fuel lit ins rest

def insertAfterAll (lit ins s : List Char) : List Char :=
  insertAfterAllF (s.length + 1) lit ins s

def buildFileMarkerLit : List Char := "1D60000F22D4FAF6008BF43F".toList

def beginBuildFileSectionLit : List Char := "/* Begin PBXBuildFile section */\n".toList

/-- The `buildfile_entries` heredoc of add_frameworks.py lines 57-81. -/
def addFw_buildfile_entries : List Char :=
  ("/* UIKit.framework */\n\t\t1D60000F22D4FAF6008BF43F /* UIKit.framework in Frameworks */ = \x7bisa = PBXBuildFile; fileRef = 1D60000E22D4FAF6008BF43F /* UIKit.framework */; \x7d;\n" ++
   "/* Foundation.framework */\n\t\t1D60001022D4FAF6008BF43F /* Foundation.framework in Frameworks */ = \x7bisa = PBXBuildFile; fileRef = 1D60000D22D4FAF6008BF43F /* Foundation.framework */; \x7d;\n" ++
   "/* SwiftUI.framework */\n\t\t1D60001122D4FAF6008BF43F /* SwiftUI.framework in Frameworks */ = \x7bisa = PBXBuildFile; fileRef = 1D60000C22D4FAF6008BF43F /* SwiftUI.framework */; \x7d;\n" ++
   "/* Combine.framework */\n\t\t1D60001222D4FAF6008BF43F /* Combine.framework in Frameworks */ = \x7bisa = PBXBuildFile; fileRef = 1D60000B22D4FAF6008BF43F /* Combine.framework */; \x7d;\n" ++
   "/* CoreData.framework */\n\t\t1D60001322D4FAF6008BF43F /* CoreData.framework in Frameworks */ = \x7bisa = PBXBuildFile; fileRef = 1D60000A22D4FAF6008BF43F /* CoreData.framework */; \x7d;\n" ++
   "/* ATProtoKit */\n\t\t1D60001422D4FAF6008BF43F /* ATProtoKit in Frameworks */ = \x7bisa = PBXBuildFile; productRef = 1D60002022D4FAF6008BF43F /* ATProtoKit */; \x7d;\n" ++
   "/* KeychainSwift */\n\t\t1D60001522D4FAF6008BF43F /* KeychainSwift in Frameworks */ = \x7bisa = PBXBuildFile; productRef = 1D60002122D4FAF6008BF43F /* KeychainSwift */; \x7d;\n" ++
   "/* AppRouter */\n\t\t1D60001622D4FAF6008BF43F /* AppRouter in Frameworks */ = \x7bisa = PBXBuildFile; productRef = 1D60002222D4FAF6008BF43F /* AppRouter */; \x7d;\n" ++
   "/* Nuke */\n\t\t1D60001722D4FAF6008BF43F /* Nuke in Frameworks */ = \x7bisa = PBXBuildFile; productRef = 1D60002322D4FAF6008BF43F /* Nuke */; \x7d;\n" ++
   "/* NukeUI */\n\t\t1D60001822D4FAF6008BF43F /* NukeUI in Frameworks */ = \x7bisa = PBXBuildFile; productRef = 1D60002422D4FAF6008BF43F /* NukeUI */; \x7d;\n" ++
   "/* ViewInspector */\n\t\t1D60001922D4FAF6008BF43F /* ViewInspector in Frameworks */ = \x7bisa = PBXBuildFile; productRef = 1D60002522D4FAF6008BF43F /* ViewInspector */; \x7d;\n" ++
   "/* AcknowList */\n\t\t1D60001A22D4FAF6008BF43F /* AcknowList in Frameworks */ = \x7bisa = PBXBuildFile; productRef = 1D60002622D4FAF6008BF43F /* AcknowList */; \x7d;\n").toList

/-- The whole content transformation of `add_framework_dependencies`
(add_frameworks.py lines 11-86, file I/O aside): apply the frameworks
substitution; then, only when the marker id is absent, insert the
PBXBuildFile entries after each section-begin line. -/
def add_framework_dependencies (content : List Char) : List Char :=
  let new_content := subFrameworks content
  if containsLit buildFileMarkerLit new_content then new_content
  else insertAfterAll beginBuildFileSectionLit addFw_buildfile_entries new_content

theorem subFrameworksF_of_no_match :
    ∀ (fuel : Nat) (s : List Char),
      hasFrameworksMatchF fuel s = false → subFrameworksF fuel s = s := by
  intro fuel
  induction fuel with
  | zero => intro s _; rfl
  | succ fuel ih =>
    intro s hno
    simp only [hasFrameworksMatchF] at hno
    simp only [subFrameworksF]
    split at hno
    · rfl
    · rename_i pre rest hh0
      split at hno
      · simp at hno
      · rename_i hsf0
        rw [hsf0, ih rest hno]
        exact (findLit_some frameworksHeaderLit s pre rest hh0).symm

theorem subFrameworks_of_no_match (s : List Char)
    (h : hasFrameworksMatch s = false) : subFrameworks s = s :=
  subFrameworksF_of_no_match (s.length + 1) s h

/-- C1 (amended): the add-frameworks operation is the identity — hence a
further application changes nothing — whenever the frameworks pattern no
longer matches anywhere and the marker build-file id is already present
(a sufficient condition; documents the operation cannot touch at all are
fixed points too).  In general it is not idempotent: when the document
still offers an empty `files = (...)` list reachable behind a Frameworks
header, a second application splices the framework entries into that
list as well (see the counterexample). -/
theorem add_framework_dependencies_amended (s : List Char)
    (h1 : hasFrameworksMatch s = false)
    (h2 : containsLit buildFileMarkerLit s = true) :
    add_framework_dependencies s = s := by
  have hsub : subFrameworks s = s := subFrameworks_of_no_match s h1
  simp only [add_framework_dependencies, hsub, h2]
  simp

/-- Witness for `add_framework_dependencies_amended`: a document that is
just the marker id. -/
theorem add_framework_dependencies_amended_witness :
    add_framework_dependencies ("1D60000F22D4FAF6008BF43F").toList =
      ("1D60000F22D4FAF6008BF43F").toList :=
  add_framework_dependencies_amended _ (by decide) (by decide)

/-- A document with an empty Frameworks file list followed by a second
empty file list (as the Resources phase of a real project file has). -/
def c1Doc : List Char :=
  ("1D1A9BBB2E761986002B8F85 /* Frameworks */ = \x7b\nfiles = (\n);\n\x7d;\nfiles = (\n);\n\x7d;\n").toList

/-- C1 counterexample: applying `add_framework_dependencies` twice to
`c1Doc` does not equal applying it once — the second application's lazy
scan escapes the already-filled Frameworks list and splices the
framework entries into the next empty file list. -/
theorem add_framework_dependencies_counterexample :
    add_framework_dependencies (add_framework_dependencies c1Doc) ≠
      add_framework_dependencies c1Doc := by
  decide

/-! ## complete_framework_fix.py (lines 6-143)

Four guarded text edits: PBXBuildFile entries, PBXFileReference entries,
package references spliced behind the `rootObject` line, and a Products
child plus Products group.  Each guard is a whole-document substring
test, not a per-item lookup. -/

def uikitFileRefMarkerLit : List Char :=
  "1D60000E22D4FAF6008BF43F /* UIKit.framework */".toList

def beginFileRefSectionLit : List Char :=
  "/* Begin PBXFileReference section */\n".toList

def rootObjectLit : List Char :=
  "rootObject = 1D1A9BB62E761986002B8F85 /* Project object */;".toList

def xcRemotePkgRefLit : List Char := "XCRemoteSwiftPackageReference".toList

def xcPkgProductLit : List Char := "XCRemoteSwiftPackageProduct".toList

def productsChildMarkerLit : List Char :=
  "1D60002922D4FAF6008BF43F /* Products */".toList

def mainGroupHeaderLit : List Char := "1D1A9BB52E761986002B8F85 = \x7b".toList

def childrenOpenLit : List Char := "children = (".toList

/-- The `buildfile_entries` heredoc of complete_framework_fix.py lines
15-40: the same twenty-four lines as add_frameworks.py's heredoc plus a
trailing blank line. -/
def cff_buildfile_entries : List Char := addFw_buildfile_entries ++ ('\n' :: [])

/-- The `fileref_entries` heredoc of complete_framework_fix.py lines
43-54. -/
def cff_fileref_entries : List Char :=
  ("/* UIKit.framework */\n\t\t1D60000E22D4FAF6008BF43F /* UIKit.framework */ = \x7bisa = PBXFileReference; lastKnownFileType = wrapper.framework; name = UIKit.framework; path = Platforms/iPhoneOS.platform/Developer/SDKs/iPhoneOS18.6.sdk/System/Library/Frameworks/UIKit.framework; sourceTree = DEVELOPER_DIR; \x7d;\n" ++
   "/* Foundation.framework */\n\t\t1D60000D22D4FAF6008BF43F /* Foundation.framework */ = \x7bisa = PBXFileReference; lastKnownFileType = wrapper.framework; name = Foundation.framework; path = Platforms/iPhoneOS.platform/Developer/SDKs/iPhoneOS18.6.sdk/System/Library/Frameworks/Foundation.framework; sourceTree = DEVELOPER_DIR; \x7d;\n" ++
   "/* SwiftUI.framework */\n\t\t1D60000C22D4FAF6008BF43F /* SwiftUI.framework */ = \x7bisa = PBXFileReference; lastKnownFileType = wrapper.framework; name = SwiftUI.framework; path = Platforms/iPhoneOS.platform/Developer/SDKs/iPhoneOS18.6.sdk/System/Library/Frameworks/SwiftUI.framework; sourceTree = DEVELOPER_DIR; \x7d;\n" ++
   "/* Combine.framework */\n\t\t1D60000B22D4FAF6008BF43F /* Combine.framework */ = \x7bisa = PBXFileReference; lastKnownFileType = wrapper.framework; name = Combine.framework; path = Platforms/iPhoneOS.platform/Developer/SDKs/iPhoneOS18.6.sdk/System/Library/Frameworks/Combine.framework; sourceTree = DEVELOPER_DIR; \x7d;\n" ++
   "/* CoreData.framework */\n\t\t1D60000A22D4FAF6008BF43F /* CoreData.framework */ = \x7bisa = PBXFileReference; lastKnownFileType = wrapper.framework; name = CoreData.framework; path = Platforms/iPhoneOS.platform/Developer/SDKs/iPhoneOS18.6.sdk/System/Library/Frameworks/CoreData.framework; sourceTree = DEVELOPER_DIR; \x7d;\n" ++
   "\n").toList

/-- The Nuke record of the `package_refs` heredoc (complete_framework_fix.py
lines 63-64). -/
def nukeRefRecordLit : List Char :=
  ("/* Nuke */\n\t\t1D60001E22D4FAF6008BF43F /* XCRemoteSwiftPackageReference \"Nuke\" */ = \x7bisa = XCRemoteSwiftPackageReference; repositoryURL = \"https://github.com/kean/Nuke\"; requirement = \x7bkind = upToNextMajorVersion; minimumVersion = \"12.8.0\";\x7d; \x7d;\n").toList

/-- The NukeUI record of the `package_refs` heredoc (lines 65-66): same
repository URL as the Nuke record, different identifier. -/
def nukeUIRefRecordLit : List Char :=
  ("/* NukeUI */\n\t\t1D60001F22D4FAF6008BF43F /* XCRemoteSwiftPackageReference \"NukeUI\" */ = \x7bisa = XCRemoteSwiftPackageReference; repositoryURL = \"https://github.com/kean/Nuke\"; requirement = \x7bkind = upToNextMajorVersion; minimumVersion = \"12.8.0\";\x7d; \x7d;\n").toList

/-- The `package_refs` heredoc of complete_framework_fix.py lines 57-72.
Note that the Nuke and NukeUI records share the repository URL
`https://github.com/kean/Nuke`. -/
def cff_package_refs : List Char :=
  ("/* ATProtoKit */\n\t\t1D60001B22D4FAF6008BF43F /* XCRemoteSwiftPackageReference \"ATProtoKit\" */ = \x7bisa = XCRemoteSwiftPackageReference; repositoryURL = \"https://github.com/MasterJ93/ATProtoKit\"; requirement = \x7bkind = upToNextMajorVersion; minimumVersion = \"0.31.2\";\x7d; \x7d;\n").toList ++
  ("/* KeychainSwift */\n\t\t1D60001C22D4FAF6008BF43F /* XCRemoteSwiftPackageReference \"KeychainSwift\" */ = \x7bisa = XCRemoteSwiftPackageReference; repositoryURL = \"https://github.com/evgenyneu/keychain-swift\"; requirement = \x7bkind = upToNextMajorVersion; minimumVersion = \"24.0.0\";\x7d; \x7d;\n").toList ++
  ("/* AppRouter */\n\t\t1D60001D22D4FAF6008BF43F /* XCRemoteSwiftPackageReference \"AppRouter\" */ = \x7bisa = XCRemoteSwiftPackageReference; repositoryURL = \"https://github.com/Dimillian/AppRouter.git\"; requirement = \x7bkind = upToNextMajorVersion; minimumVersion = \"1.0.2\";\x7d; \x7d;\n").toList ++
  nukeRefRecordLit ++
  nukeUIRefRecordLit ++
  ("/* ViewInspector */\n\t\t1D60002022D4FAF6008BF43F /* XCRemoteSwiftPackageReference \"ViewInspector\" */ = \x7bisa = XCRemoteSwiftPackageReference; repositoryURL = \"https://github.com/nalexn/ViewInspector\"; requirement = \x7bkind = upToNextMajorVersion; minimumVersion = \"0.10.1\";\x7d; \x7d;\n").toList ++
  ("/* AcknowList */\n\t\t1D60002122D4FAF6008BF43F /* XCRemoteSwiftPackageReference \"AcknowList\" */ = \x7bisa = XCRemoteSwiftPackageReference; repositoryURL = \"https://github.com/vtourraine/AcknowList\"; requirement = \x7bkind = upToNextMajorVersion; minimumVersion = \"3.3.0\";\x7d; \x7d;\n").toList ++
  ("\n").toList

/-- The replacement of `add_packages` (lines 107-109): group 1 plus
`packageReferences = (`, the heredoc, `);` and the consumed brace. -/
def pkgRefsReplacement : List Char :=
  "packageReferences = (\n".toList ++ cff_package_refs ++ ");\n\t\x7d".toList

/-- The substitution of line 111: anchored at the `rootObject` literal,
the lazy `[\s\S]*?` runs to the first `\x7d`, which the pattern consumes
and the replacement re-emits after the spliced package references. -/
def subProjectPkgRefsF : Nat → List Char → List Char
  | 0, s => s
  | fuel + 1, s =>
    match findLit rootObjectLit s with
    | none => s
    | some (pre, rest) =>
      let mid := rest.takeWhile (fun c => !(c = '\x7d'))
      if mid.length < rest.length then
        pre ++ rootObjectLit ++ mid ++ pkgRefsReplacement ++
          subProjectPkgRefsF fuel (rest.drop (mid.length + 1))
      else s

def subProjectPkgRefs (s : List Char) : List Char :=
  subProjectPkgRefsF (s.length + 1) s

/-- Match of the group-2 `(\s*\);)` of the `children` pattern (line 116):
whitespace run then the literal `);`, with no further lazy part. -/
def checkTailNB (a : List Char) : Option (List Char × List Char) :=
  let ws := a.takeWhile pyIsSpace
  let a' := a.dropWhile pyIsSpace
  if parenSemiLit.isPrefixOf a' then some (ws ++ parenSemiLit, a'.drop 2)
  else none

/-- The lazy scan to an empty `children = (...)` list, as `searchFilesF`
but with the bracket-only tail group. -/
def searchChildrenF : Nat → List Char → Option (List Char × List Char × List Char)
  | 0, _ => none
  | fuel + 1, s =>
    match findLit childrenOpenLit s with
    | none => none
    | some (b, a) =>
      match checkTailNB a with
      | some (g2, t) => some (b ++ childrenOpenLit, g2, t)
      | none =>
        match searchChildrenF fuel a with
        | some (g1r, g2, t) => some (b ++ childrenOpenLit ++ g1r, g2, t)
        | none => none

def searchChildren (s : List Char) : Option (List Char × List Char × List Char) :=
  searchChildrenF (s.length + 1) s

/-- The `add_products` replacement payload (line 121). -/
def productsChildInsert : List Char :=
  "1D60002922D4FAF6008BF43F /* Products */,\n".toList

/-- The substitution of line 123 over the main-group `children` pattern. -/
def subGroupProductsF : Nat → List Char → List Char
  | 0, s => s
  | fuel + 1, s =>
    match findLit mainGroupHeaderLit s with
    | none => s
    | some (pre, rest) =>
      match searchChildren rest with
      | some (g1r, g2, tail) =>
        pre ++ mainGroupHeaderLit ++ g1r ++ productsChildInsert ++ g2 ++
          subGroupProductsF fuel tail
      | none => pre ++ mainGroupHeaderLit ++ subGroupProductsF fuel rest

def subGroupProducts (s : List Char) : List Char :=
  subGroupProductsF (s.length + 1) s

/-- The `products_group` string of lines 127-136.  It is an ordinary
(non-f) Python string, so the text `\x7bproduct_refs\x7d` is emitted
literally and the `product_refs` records (lines 75-90) are never
inserted anywhere. -/
def cff_products_group : List Char :=
  "/* Products */\n\t\t1D60002922D4FAF6008BF43F /* Products */ = \x7b\n\t\t\tisa = PBXGroup;\n\t\t\tchildren = (\n\x7bproduct_refs\x7d\n\t\t\t);\n\t\t\tname = Products;\n\t\t\tsourceTree = \"<group>\";\n\t\t\x7d;\n".toList

def mainGroupTailLit : List Char := "sourceTree = \"<group>\";\n\t\x7d;\n".toList

/-- The content transformation of `complete_framework_fix` (lines 6-143,
file I/O aside): the four guarded edits in order. -/
def complete_framework_fix (content : List Char) : List Char :=
  let c1 := if containsLit buildFileMarkerLit content then content
    else insertAfterAll beginBuildFileSectionLit cff_buildfile_entries content
  let c2 := if containsLit uikitFileRefMarkerLit c1 then c1
    else insertAfterAll beginFileRefSectionLit cff_fileref_entries c1
  let c3 := if containsLit xcRemotePkgRefLit c2 then c2
    else subProjectPkgRefs c2
  if containsLit xcPkgProductLit c3 then c3
  else
    let c4 := subGroupProducts c3
    if containsLit productsChildMarkerLit c4 then c4
    else insertAfterAll mainGroupTailLit cff_products_group c4

/-- The package-reference step of `complete_framework_fix` in isolation
(lines 102-111): skip silently when any `XCRemoteSwiftPackageReference`
substring exists, otherwise splice the fixed package references behind
the `rootObject` line. -/
def cff_package_step (content : List Char) : List Char :=
  if containsLit xcRemotePkgRefLit content then content
  else subProjectPkgRefs content

theorem containsLit_append_of_mid (lit x m y : List Char)
    (h : containsLit lit m = true) : containsLit lit (x ++ m ++ y) = true := by
  rw [containsLit] at h
  rcases hf : findLit lit m with _ | ⟨b, a⟩
  · rw [hf] at h; simp at h
  · have hm := findLit_some lit m b a hf
    have : x ++ m ++ y = (x ++ b) ++ lit ++ (a ++ y) := by
      rw [hm]; simp [List.append_assoc]
    rw [this]
    exact containsLit_of_parts lit (x ++ b) (a ++ y)

theorem containsLit_append_left (lit x y : List Char)
    (h : containsLit lit x = true) : containsLit lit (x ++ y) = true := by
  rw [containsLit] at h
  rcases hf : findLit lit x with _ | ⟨b, a⟩
  · rw [hf] at h; simp at h
  · have hx := findLit_some lit x b a hf
    have : x ++ y = b ++ lit ++ (a ++ y) := by rw [hx]; simp [List.append_assoc]
    rw [this]
    exact containsLit_of_parts lit b (a ++ y)

theorem containsLit_append_right (lit x y : List Char)
    (h : containsLit lit y = true) : containsLit lit (x ++ y) = true := by
  rw [containsLit] at h
  rcases hf : findLit lit y with _ | ⟨b, a⟩
  · rw [hf] at h; simp at h
  · have hy := findLit_some lit y b a hf
    have : x ++ y = (x ++ b) ++ lit ++ a := by rw [hy]; simp [List.append_assoc]
    rw [this]
    exact containsLit_of_parts lit (x ++ b) a

theorem subProjectPkgRefsF_cases :
    ∀ (fuel : Nat) (s : List Char),
      subProjectPkgRefsF fuel s = s ∨
      containsLit xcRemotePkgRefLit (subProjectPkgRefsF fuel s) = true := by
  intro fuel
  induction fuel with
  | zero => intro s; exact Or.inl rfl
  | succ fuel ih =>
    intro s
    simp only [subProjectPkgRefsF]
    split
    · exact Or.inl rfl
    · rename_i pre rest hh
      split
      · rename_i hlt
        refine Or.inr ?_
        have hrepl : containsLit xcRemotePkgRefLit pkgRefsReplacement = true := by decide
        have := containsLit_append_of_mid xcRemotePkgRefLit
          (pre ++ rootObjectLit ++ (rest.takeWhile (fun c => !(c = '\x7d'))))
          pkgRefsReplacement
          (subProjectPkgRefsF fuel (rest.drop ((rest.takeWhile (fun c => !(c = '\x7d'))).length + 1)))
          hrepl
        simpa [List.append_assoc] using this
      · exact Or.inl rfl

/-- C7 (amended): re-running `complete_framework_fix`'s package-reference
step is a no-op — the step is idempotent, because a first run either
leaves the document unchanged or plants the
`XCRemoteSwiftPackageReference` marker its guard tests.  But the guard is
a whole-document substring check, not a per-URL lookup, and a single run
inserts two PackageReference records sharing the Nuke repository URL
(see the counterexample). -/
theorem cff_package_step_idem (s : List Char) :
    cff_package_step (cff_package_step s) = cff_package_step s := by
  by_cases hc : containsLit xcRemotePkgRefLit s = true
  · simp [cff_package_step, hc]
  · simp only [Bool.not_eq_true] at hc
    have hstep : cff_package_step s = subProjectPkgRefs s := by
      simp [cff_package_step, hc]
    rw [hstep]
    rcases subProjectPkgRefsF_cases (s.length + 1) s with heq | hcon
    · have heq' : subProjectPkgRefs s = s := heq
      rw [heq', hstep, heq']
    · have hcon' : containsLit xcRemotePkgRefLit (subProjectPkgRefs s) = true := hcon
      simp [cff_package_step, hcon']

def listLenGo : Nat → List Char → Nat
  | acc, [] => acc
  | acc, _ :: cs => listLenGo (acc + 1) cs

/-- Number of non-overlapping occurrences of a literal, scanning left to
right (tail-recursive, fuel-bounded). -/
def countLitGo (lit : List Char) : Nat → Nat → List Char → Nat
  | acc, 0, _ => acc
  | acc, fuel + 1, s =>
    match findLit lit s with
    | none => acc
    | some (_, rest) => countLitGo lit (acc + 1) fuel rest

def countLit (lit s : List Char) : Nat := countLitGo lit 0 (listLenGo 0 s + 1) s

/-- The repository-URL field shared by the Nuke and NukeUI records of
`cff_package_refs`. -/
def pkgNukeUrlLit : List Char :=
  "repositoryURL = \"https://github.com/kean/Nuke\";".toList

/-- A document with a root object line and closing brace and no package
references yet. -/
def c7Doc : List Char :=
  ("\trootObject = 1D1A9BB62E761986002B8F85 /* Project object */;\n\x7d\n").toList

theorem subProjectPkgRefsF_none (fuel : Nat) (s : List Char)
    (h : findLit rootObjectLit s = none) : subProjectPkgRefsF fuel s = s := by
  cases fuel with
  | zero => rfl
  | succ fuel =>
    simp only [subProjectPkgRefsF]
    split
    · rfl
    · rename_i pre rest hh
      rw [h] at hh
      simp at hh

/-- What one run of the package step does to `c7Doc`: it splices the
whole package-reference payload between the first closing brace found
after the `rootObject` line. -/
theorem cff_package_step_c7Doc_eq :
    cff_package_step c7Doc =
      ("\t").toList ++ rootObjectLit ++ ("\n").toList ++ pkgRefsReplacement ++
        ("\n").toList := by
  have hg : containsLit xcRemotePkgRefLit c7Doc = false := by decide
  have hfind : findLit rootObjectLit c7Doc =
      some (("\t").toList, ("\n\x7d\n").toList) := by decide
  have hstep : cff_package_step c7Doc = subProjectPkgRefs c7Doc := by
    simp [cff_package_step, hg]
  rw [hstep, subProjectPkgRefs]
  rw [subProjectPkgRefsF]
  simp only [hfind]
  rw [show (("\n\x7d\n").toList).takeWhile (fun c => !(c = '\x7d')) =
    ("\n").toList from by decide]
  rw [if_pos (by decide : (("\n").toList).length < (("\n\x7d\n").toList).length)]
  rw [show (("\n\x7d\n").toList).drop ((("\n").toList).length + 1) =
    ("\n").toList from by decide]
  rw [subProjectPkgRefsF_none c7Doc.length (("\n").toList) (by decide)]

/-- C7 counterexample: one application of the package-reference step to a
document with no package references inserts two distinct PackageReference
records — the Nuke record and the NukeUI record — that carry the same
repository URL (`https://github.com/kean/Nuke`), violating
at-most-one-PackageReference-per-URL; the guard never looked anything up
by URL. -/
theorem cff_package_step_counterexample :
    containsLit nukeRefRecordLit (cff_package_step c7Doc) = true ∧
    containsLit nukeUIRefRecordLit (cff_package_step c7Doc) = true ∧
    nukeRefRecordLit ≠ nukeUIRefRecordLit ∧
    containsLit pkgNukeUrlLit nukeRefRecordLit = true ∧
    containsLit pkgNukeUrlLit nukeUIRefRecordLit = true ∧
    containsLit xcRemotePkgRefLit c7Doc = false := by
  have hself : ∀ l : List Char, containsLit l l = true := by
    intro l
    simpa using containsLit_of_parts l [] []
  have hrefs1 : containsLit nukeRefRecordLit cff_package_refs = true := by
    simp only [cff_package_refs]
    apply containsLit_append_left
    apply containsLit_append_left
    apply containsLit_append_left
    apply containsLit_append_left
    apply containsLit_append_right
    exact hself _
  have hrefs2 : containsLit nukeUIRefRecordLit cff_package_refs = true := by
    simp only [cff_package_refs]
    apply containsLit_append_left
    apply containsLit_append_left
    apply containsLit_append_left
    apply containsLit_append_right
    exact hself _
  have hlift : ∀ lit : List Char, containsLit lit cff_package_refs = true →
      containsLit lit (cff_package_step c7Doc) = true := by
    intro lit h
    rw [cff_package_step_c7Doc_eq]
    apply containsLit_append_left
    apply containsLit_append_right
    simp only [pkgRefsReplacement]
    apply containsLit_append_left
    apply containsLit_append_right
    exact h
  exact ⟨hlift _ hrefs1, hlift _ hrefs2, by decide, by decide, by decide, by decide⟩

/-- A PackageReference record for the ATProtoKit repository URL carrying
requirement version 0.1.0 — different from the 0.31.2 the scripts
request. -/
def conflictingAtprotoRecordLit : List Char :=
  "isa = XCRemoteSwiftPackageReference; repositoryURL = \"https://github.com/MasterJ93/ATProtoKit\"; requirement = \x7bkind = upToNextMajorVersion; minimumVersion = \"0.1.0\";\x7d;".toList

/-- C4 (amended): when a PackageReference for the same URL with a
different version requirement already exists, `complete_framework_fix`'s
package step does not fail with any error — there is no failure channel
at all — it silently returns the document unchanged, leaving the
conflicting old requirement in place and never recording the requested
one. -/
theorem cff_package_step_conflict (s : List Char)
    (h : containsLit conflictingAtprotoRecordLit s = true) :
    cff_package_step s = s := by
  have hmark : containsLit xcRemotePkgRefLit s = true :=
    containsLit_trans xcRemotePkgRefLit conflictingAtprotoRecordLit s (by decide) h
  simp [cff_package_step, hmark]

/-- Witness for `cff_package_step_conflict`: the conflicting record
itself as the document. -/
theorem cff_package_step_conflict_witness :
    cff_package_step conflictingAtprotoRecordLit = conflictingAtprotoRecordLit :=
  cff_package_step_conflict _ (by decide)

/-! ## modify_horizon_project.py: add_packages_to_project (lines 11-143)

The script builds XCRemoteSwiftPackageReference and
XCSwiftPackageProductDependency records with fresh `generate_uuid` draws,
splices them after the first `/* End PBXBuildFile section */` marker,
and then attempts two `re.sub` calls whose patterns contain `\\*` inside
a raw string — a doubly escaped asterisk, which the regex engine reads
as a literal-backslash run, so `/\\* Horizon \\*/` can never match the
comment `/* Horizon */` of a real document and the two substitutions are
dead.  No version comparison of any kind is performed before
inserting. -/

structure PyPackage where
  name : String
  url : String
  version : String

/-- The `packages` list of modify_horizon_project.py lines 21-52. -/
def mh_packages : List PyPackage :=
  [⟨"ATProtoKit", "https://github.com/MasterJ93/ATProtoKit", "0.31.2"⟩,
   ⟨"keychain-swift", "https://github.com/evgenyneu/keychain-swift", "24.0.0"⟩,
   ⟨"AppRouter", "https://github.com/Dimillian/AppRouter.git", "1.0.2"⟩,
   ⟨"Nuke", "https://github.com/kean/Nuke", "12.8.0"⟩,
   ⟨"ViewInspector", "https://github.com/nalexn/ViewInspector", "0.10.1"⟩,
   ⟨"AcknowList", "https://github.com/vtourraine/AcknowList", "3.3.0"⟩]

/-- One XCRemoteSwiftPackageReference record (f-string of lines 63-70). -/
def mh_refEntry (refUuid : List Char) (p : PyPackage) : List Char :=
  ("\t\t").toList ++ refUuid ++ (" /* ").toList ++ p.name.toList ++
  (" */ = \x7b\n\t\t\tisa = XCRemoteSwiftPackageReference;\n\t\t\trepositoryURL = \"").toList ++
  p.url.toList ++
  ("\";\n\t\t\trequirement = \x7b\n\t\t\t\tkind = upToNextMajorVersion;\n\t\t\t\tminimumVersion = \"").toList ++
  p.version.toList ++ ("\";\n\t\t\t\x7d;\n\t\t\t\x7d;").toList

/-- One XCSwiftPackageProductDependency record (f-strings of lines 78-96). -/
def mh_prodEntry (prodUuid refUuid pkgName prodName : List Char) : List Char :=
  ("\t\t").toList ++ prodUuid ++ (" /* ").toList ++ prodName ++
  (" */ = \x7b\n\t\t\tisa = XCSwiftPackageProductDependency;\n\t\t\tpackage = ").toList ++
  refUuid ++ (" /* ").toList ++ pkgName ++
  (" */;\n\t\t\tproductName = ").toList ++ prodName ++ (";\n\t\t\t\x7d;").toList

/-- The build loop of lines 54-97: one reference record per package, one
product record per product (two for Nuke), threading the uuid supply `u`
in the order the Python calls `generate_uuid`. -/
def mh_buildLoop (u : Nat → List Char) :
    List PyPackage → Nat → (List (List Char) × List (List Char) × List (List Char))
  | [], _ => ([], [], [])
  | p :: ps, k =>
    let refUuid := u k
    if p.name = "Nuke" then
      let p1 := u (k + 1)
      let p2 := u (k + 2)
      let (rs, prods, deps) := mh_buildLoop u ps (k + 3)
      (mh_refEntry refUuid p :: rs,
       mh_prodEntry p1 refUuid p.name.toList (("Nuke").toList) ::
         mh_prodEntry p2 refUuid p.name.toList (("NukeUI").toList) :: prods,
       p1 :: p2 :: deps)
    else
      let pu := u (k + 1)
      let (rs, prods, deps) := mh_buildLoop u ps (k + 2)
      (mh_refEntry refUuid p :: rs,
       mh_prodEntry pu refUuid p.name.toList p.name.toList :: prods,
       pu :: deps)

def endBuildFileLit : List Char := "/* End PBXBuildFile section */".toList

/-- The `references_section` of lines 107-115. -/
def mh_referencesSection (refs prods : List (List Char)) : List Char :=
  ("\n/* Begin XCRemoteSwiftPackageReference section */\n").toList ++ joinNl refs ++
  ("\n/* End XCRemoteSwiftPackageReference section */\n\n/* Begin XCSwiftPackageProductDependency section */\n").toList ++
  joinNl prods ++ ("\n/* End XCSwiftPackageProductDependency section */\n").toList

/-- `content[:ip] + section + content[ip:]` with
`ip = content.find(marker) + len(marker)` (lines 102-118): insert after
the first occurrence only. -/
def insertAfterFirst (lit ins s : List Char) : List Char :=
  match findLit lit s with
  | none => s
  | some (pre, rest) => pre ++ lit ++ ins ++ rest

def joinWith (sep : List Char) : List (List Char) → List Char
  | [] => []
  | [l] => l
  | l :: ls => l ++ sep ++ joinWith sep ls

/-- Last occurrence of a literal (used for the greedy `[^}]*` group). -/
def findLitLastF : Nat → List Char → List Char → Option (List Char × List Char)
  | 0, _, _ => none
  | fuel + 1, lit, s =>
    match findLit lit s with
    | none => none
    | some (b, a) =>
      match findLitLastF fuel lit a with
      | some (b2, a2) => some (b ++ lit ++ b2, a2)
      | none => some (b, a)

def slashEqBraceLit : List Char := "/ = \x7b".toList

def emptyParenSemiLit : List Char := "();".toList

/-- One match attempt of the doubly-escaped patterns of lines 125 and
131, positioned just after the anchor id-and-slash literal: the regex
`\\*` consumes a run of literal backslashes (not an asterisk), then the
spaced name, another backslash run, `/ = \x7b`, the greedy `[^}]*` up to
the needle ending the first group, and the final `\(\);`. -/
def matchBuggedAt (mid g1needle : List Char) (rest : List Char) :
    Option (List Char × List Char) :=
  let r1bs := rest.takeWhile (fun c => c = '\\')
  let r1 := rest.dropWhile (fun c => c = '\\')
  if mid.isPrefixOf r1 then
    let r2full := r1.drop mid.length
    let r2bs := r2full.takeWhile (fun c => c = '\\')
    let r2 := r2full.dropWhile (fun c => c = '\\')
    if slashEqBraceLit.isPrefixOf r2 then
      let r3 := r2.drop slashEqBraceLit.length
      let run := r3.takeWhile (fun c => !(c = '\x7d'))
      match findLitLastF (run.length + 1) (g1needle ++ emptyParenSemiLit) run with
      | some (before, after) =>
        some (r1bs ++ mid ++ r2bs ++ slashEqBraceLit ++ before ++ g1needle,
              after ++ r3.drop run.length)
      | none => none
    else none
  else none

/-- The full `re.sub` over one of the doubly-escaped patterns: scan for
the anchor literal, attempt the match, and on success splice the
replacement for the consumed `();`. -/
def subBuggedF (lit1 mid g1needle repl : List Char) : Nat → List Char → List Char
  | 0, s => s
  | fuel + 1, s =>
    match findLit lit1 s with
    | none => s
    | some (pre, rest) =>
      match matchBuggedAt mid g1needle rest with
      | some (g1r, tail) =>
        pre ++ lit1 ++ g1r ++ repl ++ subBuggedF lit1 mid g1needle repl fuel tail
      | none => pre ++ lit1 ++ subBuggedF lit1 mid g1needle repl fuel rest

def subBugged (lit1 mid g1needle repl s : List Char) : List Char :=
  subBuggedF lit1 mid g1needle repl (s.length + 1) s

def mh_horizonAnchorLit : List Char := "1D1A9BBD2E761986002B8F85 /".toList

def mh_frameworksAnchorLit : List Char := "1D1A9BBB2E761986002B8F85 /".toList

/-- The `horizon_target_replacement` payload of line 126 (everything
behind the back-reference). -/
def mh_horizonRepl (deps : List (List Char)) : List Char :=
  ("(").toList ++
  joinWith ((", ").toList)
    (deps.map (fun d => d ++ (" /* ").toList ++ get_product_name d ++ (" */").toList)) ++
  (");").toList

/-- The `frameworks_replacement` payload of line 132. -/
def mh_frameworksRepl (deps : List (List Char)) : List Char :=
  ("(").toList ++
  joinWith ((",\n\t\t\t").toList)
    (deps.map (fun d =>
      d ++ (" /* ").toList ++ get_product_name d ++ (" in Frameworks */").toList)) ++
  (",\n\t\t);").toList

/-- The content transformation of `add_packages_to_project` (lines
11-143, file I/O aside), with the uuid supply `u` explicit: when the
PBXBuildFile end marker exists, splice the freshly built sections after
it and run the two dead substitutions; the unused `target_pattern` of
lines 121-122 is omitted.  There is no check whatsoever against existing
package references or their versions. -/
def add_packages_to_project (u : Nat → List Char) (content : List Char) : List Char :=
  let secs := mh_buildLoop u mh_packages 0
  if containsLit endBuildFileLit content then
    let c1 := insertAfterFirst endBuildFileLit
      (mh_referencesSection secs.1 secs.2.1) content
    let c2 := subBugged mh_horizonAnchorLit (" Horizon ").toList
      ("packageProductDependencies = ").toList (mh_horizonRepl secs.2.2) c1
    subBugged mh_frameworksAnchorLit (" Frameworks ").toList
      ("files = ").toList (mh_frameworksRepl secs.2.2) c2
  else content

/-- A document that already carries an ATProtoKit package reference with
version 0.1.0 (conflicting with the requested 0.31.2) and the insertion
marker. -/
def c4Doc : List Char :=
  ("/* End PBXBuildFile section */\n").toList ++ conflictingAtprotoRecordLit ++
    ("\n").toList

/-- The sections built from the uuid supply at draws 0,1,2,... -/
def c4Secs : List (List Char) × List (List Char) × List (List Char) :=
  mh_buildLoop generate_uuid mh_packages 0

/-- The document after the splice of the reference and product sections. -/
def c4Inserted : List Char :=
  insertAfterFirst endBuildFileLit (mh_referencesSection c4Secs.1 c4Secs.2.1) c4Doc

theorem take_append_of_le (p z : List Char) (m : Nat) (h : m ≤ p.length) :
    (p ++ z).take m = p.take m := by
  rw [List.take_append_eq_append_take, Nat.sub_eq_zero_of_le h]
  simp

theorem subBuggedF_of_none (lit1 mid g1n repl : List Char) (fuel : Nat)
    (s : List Char) (h : findLit lit1 s = none) :
    subBuggedF lit1 mid g1n repl fuel s = s := by
  cases fuel with
  | zero => rfl
  | succ n => simp only [subBuggedF, h]

theorem subBuggedF_shape (lit1 mid g1n repl : List Char) (fuel : Nat)
    (X pre rest : List Char) (hf : findLit lit1 X = some (pre, rest)) :
    ∃ t, subBuggedF lit1 mid g1n repl (fuel + 1) X = (pre ++ lit1) ++ t := by
  simp only [subBuggedF, hf]
  cases hm : matchBuggedAt mid g1n rest with
  | none =>
    exact ⟨subBuggedF lit1 mid g1n repl fuel rest, by simp [List.append_assoc]⟩
  | some p =>
    obtain ⟨g1r, tail⟩ := p
    exact ⟨g1r ++ repl ++ subBuggedF lit1 mid g1n repl fuel tail,
      by simp [List.append_assoc]⟩

/-- A substitution pass whose anchor literal has no occurrence inside the
first `k` characters of the input cannot touch the first `m` characters,
for any `m` at least one literal length below `k`: the pass either
matches nothing (and returns the input) or first matches at a position
beyond `k - |lit1|`. -/
theorem subBugged_take (lit1 mid g1n repl X : List Char) (k m : Nat)
    (hm : m + lit1.length ≤ k + 1)
    (hnone : findLit lit1 (X.take k) = none) :
    (subBugged lit1 mid g1n repl X).take m = X.take m := by
  cases hfl : findLit lit1 X with
  | none =>
    rw [subBugged, subBuggedF_of_none lit1 mid g1n repl (X.length + 1) X hfl]
  | some pr =>
    obtain ⟨pre, rest⟩ := pr
    have hX : X = pre ++ lit1 ++ rest := findLit_some lit1 X pre rest hfl
    have hpre : m ≤ pre.length := by
      by_contra hlt
      push_neg at hlt
      have hk : (pre ++ lit1).length ≤ k := by
        simp only [List.length_append]; omega
      have htk : X.take k = (pre ++ lit1) ++ rest.take (k - (pre ++ lit1).length) := by
        rw [hX, List.take_append_eq_append_take, List.take_of_length_le hk]
      have hc : containsLit lit1 (X.take k) = true := by
        rw [htk]
        exact containsLit_of_parts lit1 pre (rest.take (k - (pre ++ lit1).length))
      rw [containsLit, hnone] at hc
      simp at hc
    obtain ⟨t, ht⟩ := subBuggedF_shape lit1 mid g1n repl X.length X pre rest hfl
    rw [subBugged, ht, hX]
    rw [take_append_of_le (pre ++ lit1) t m (by simp only [List.length_append]; omega),
      take_append_of_le pre lit1 m hpre]
    rw [take_append_of_le (pre ++ lit1) rest m (by simp only [List.length_append]; omega),
      take_append_of_le pre lit1 m hpre]

/-- C4 counterexample: on a document already holding a PackageReference
for the ATProtoKit URL with a different version requirement,
`add_packages_to_project` does not fail with ConflictingRequirement — it
has no failure channel at all — and the document after the call differs
from the document before it: the new sections are inserted regardless of
the conflict (already their first 70 characters differ, since the two
dead substitutions cannot alter that region). -/
theorem add_packages_to_project_counterexample :
    add_packages_to_project generate_uuid c4Doc ≠ c4Doc ∧
    containsLit conflictingAtprotoRecordLit c4Doc = true := by
  constructor
  · have hguard : containsLit endBuildFileLit c4Doc = true := by decide
    have h1 : findLit mh_horizonAnchorLit (c4Inserted.take 120) = none := by
      decide
    have hY95 : (subBugged mh_horizonAnchorLit ((" Horizon ").toList)
        (("packageProductDependencies = ").toList) (mh_horizonRepl c4Secs.2.2)
        c4Inserted).take 95 = c4Inserted.take 95 :=
      subBugged_take _ _ _ _ _ 120 95 (by decide) h1
    have hY70 : (subBugged mh_horizonAnchorLit ((" Horizon ").toList)
        (("packageProductDependencies = ").toList) (mh_horizonRepl c4Secs.2.2)
        c4Inserted).take 70 = c4Inserted.take 70 :=
      subBugged_take _ _ _ _ _ 120 70 (by decide) h1
    have h2 : findLit mh_frameworksAnchorLit
        ((subBugged mh_horizonAnchorLit ((" Horizon ").toList)
          (("packageProductDependencies = ").toList)
          (mh_horizonRepl c4Secs.2.2) c4Inserted).take 95) = none := by
      rw [hY95]; decide
    have hZ70 : (subBugged mh_frameworksAnchorLit ((" Frameworks ").toList)
        (("files = ").toList) (mh_frameworksRepl c4Secs.2.2)
        (subBugged mh_horizonAnchorLit ((" Horizon ").toList)
          (("packageProductDependencies = ").toList)
          (mh_horizonRepl c4Secs.2.2) c4Inserted)).take 70
        = (subBugged mh_horizonAnchorLit ((" Horizon ").toList)
            (("packageProductDependencies = ").toList)
            (mh_horizonRepl c4Secs.2.2) c4Inserted).take 70 :=
      subBugged_take _ _ _ _ _ 95 70 (by decide) h2
    have hunf : add_packages_to_project generate_uuid c4Doc
        = subBugged mh_frameworksAnchorLit ((" Frameworks ").toList)
            (("files = ").toList) (mh_frameworksRepl c4Secs.2.2)
            (subBugged mh_horizonAnchorLit ((" Horizon ").toList)
              (("packageProductDependencies = ").toList)
              (mh_horizonRepl c4Secs.2.2) c4Inserted) := by
      simp only [add_packages_to_project]
      rw [if_pos hguard]
      rw [show mh_buildLoop generate_uuid mh_packages 0 = c4Secs from rfl]
      rw [show insertAfterFirst endBuildFileLit
        (mh_referencesSection c4Secs.1 c4Secs.2.1) c4Doc = c4Inserted from rfl]
    intro heq
    have hfinal : c4Doc.take 70 = c4Inserted.take 70 := by
      rw [← heq, hunf, hZ70, hY70]
    exact absurd hfinal (by decide)
  · have := containsLit_of_parts conflictingAtprotoRecordLit
      (("/* End PBXBuildFile section */\n").toList) (("\n").toList)
    simpa [c4Doc, List.append_assoc] using this

/-! ## Persistence: the write path of add_frameworks.py (lines 11-12 and
84-86) — identically modify_horizon_project.py lines 136-138 — as a
filesystem trace.  The Python is `with open(path) as f: content =
f.read()`, then processing, then `with open(path, 'w') as f:
f.write(new_content)`: mode 'w' truncates the destination in place the
moment it is opened, and no temporary file or rename appears anywhere in
the scripts. -/

/-- Filesystem steps a script run performs on the project file. -/
inductive FsOp where
  | openRead : FsOp
  | closeFile : FsOp
  | openWriteTrunc : FsOp
  | writeAll : List Char → FsOp
  | renameInto : FsOp

/-- Effect of one step on the on-disk bytes of the destination file:
opening with mode 'w' truncates immediately; a write appends. -/
def applyFsOp (st : List Char) : FsOp → List Char
  | FsOp.openRead => st
  | FsOp.closeFile => st
  | FsOp.openWriteTrunc => []
  | FsOp.writeAll c => st ++ c
  | FsOp.renameInto => st

def runOps (st : List Char) (ops : List FsOp) : List Char :=
  ops.foldl applyFsOp st

def isRenameOp : FsOp → Bool
  | FsOp.renameInto => true
  | _ => false

/-- The exact step sequence of `add_framework_dependencies`: read the
file (lines 11-12), compute the new content, then reopen the same path
with truncating mode 'w' and write it (lines 84-86). -/
def add_framework_dependencies_trace (old : List Char) : List FsOp :=
  [FsOp.openRead, FsOp.closeFile, FsOp.openWriteTrunc,
   FsOp.writeAll (add_framework_dependencies old), FsOp.closeFile]

/-- C3 (amended): a full, uninterrupted run does end with the file
holding exactly the new serialized content, but the trace performs no
rename whatsoever — the destination is rewritten in place through a
truncating open, so no write-new-then-rename staging exists. -/
theorem add_framework_dependencies_trace_spec (old : List Char) :
    runOps old (add_framework_dependencies_trace old)
      = add_framework_dependencies old ∧
    (add_framework_dependencies_trace old).all
      (fun op => !(isRenameOp op)) = true := by
  constructor
  · simp [runOps, add_framework_dependencies_trace, applyFsOp]
  · rfl

def c3Old : List Char := "x".toList

/-- C3 counterexample: the trace contains no rename step at all, and
stopping the run right after the truncating open leaves the file empty —
neither the complete old content nor the complete new content — so a
failure between the open and the write loses the original bytes. -/
theorem add_framework_dependencies_trace_counterexample :
    (add_framework_dependencies_trace c3Old).all
      (fun op => !(isRenameOp op)) = true ∧
    runOps c3Old ((add_framework_dependencies_trace c3Old).take 3) ≠ c3Old ∧
    runOps c3Old ((add_framework_dependencies_trace c3Old).take 3)
      ≠ add_framework_dependencies c3Old := by
  refine ⟨rfl, by decide, by decide⟩

/-! ## convert_to_xcodeproj.py: create_project_structure (lines 22-444)
and create_minimal_project.py: create_minimal_xcode_project (lines
16-340) as identifier graphs.

The minimal script's document is a fixed literal; its node identifiers
and every identifier referenced by a field are transcribed below in file
order.  The converter draws uuids at runtime; its draw layout, in Python
call order, is: draw 0 the project object, draw 1 the main target, draw
2+i shared by the i-th BuildFile AND its FileReference (lines 45-48 use
the one `file_uuid` for both records), draws 2+n .. 5+n the four group
nodes, 6+n .. 15+n the Features children entries, 16+n .. 20+n the Model
children entries, 21+n .. 20+n+a the App Source children entries (`a` =
number of app files, `n` = number of all files), 21+n+a .. 20+2n+a the
Sources-phase file list entries (line 123), and the 23 inline f-string
draws from c = 21+2n+a on (lines 143-434): c Frameworks phase, c+1 root
group, c+2 the root group's Products child entry, c+3 the Products group
node, c+4 .. c+7 the target's configuration-list and build-phase
references, c+8 .. c+10 the project's configuration-list, mainGroup and
productRefGroup references, c+11 Resources phase, c+12 Sources phase,
c+13 .. c+16 the four build configurations, c+17 and c+20 the two
configuration lists, c+18, c+19, c+21, c+22 their buildConfigurations
entries. -/

def minimal_node_ids : List (List Char) :=
  ["A1000001294A1234001A2B3C4", "A0FFFDFF294A1234001A2B3C4",
   "A1000000294A1234001A2B3C4", "A0FFFDFC294A1234001A2B3C4",
   "A0FFFDF6294A1234001A2B3C4", "A0FFFE00294A1234001A2B3C4",
   "A0FFFE01294A1234001A2B3C4", "A0FFFDFE294A1234001A2B3C4",
   "A0FFFDF7294A1234001A2B3C4", "A0FFFDFD294A1234001A2B3C4",
   "A0FFFDFB294A1234001A2B3C4", "A100000A294A1234001A2B3C4",
   "A100000B294A1234001A2B3C4", "A100000D294A1234001A2B3C4",
   "A100000E294A1234001A2B3C4", "A0FFFDF8294A1234001A2B3C4",
   "A100000C294A1234001A2B3C4"].map String.toList

/-- Every identifier some field of the minimal document references, in
file order: the BuildFile's fileRef, the three groups' children, the
target's configuration list, build phases and productReference, the
project's TargetAttributes key, configuration list, mainGroup,
productRefGroup and targets entry, the Sources phase's file, the two
configuration lists' children, and the rootObject. -/
def minimal_ref_ids : List (List Char) :=
  ["A1000000294A1234001A2B3C4", "A0FFFE01294A1234001A2B3C4",
   "A0FFFE00294A1234001A2B3C4", "A0FFFDFF294A1234001A2B3C4",
   "A1000000294A1234001A2B3C4", "A100000C294A1234001A2B3C4",
   "A0FFFDFB294A1234001A2B3C4", "A0FFFDFC294A1234001A2B3C4",
   "A0FFFDFD294A1234001A2B3C4", "A0FFFDFF294A1234001A2B3C4",
   "A0FFFDFF294A1234001A2B3C4", "A0FFFDF8294A1234001A2B3C4",
   "A0FFFDF6294A1234001A2B3C4", "A0FFFE00294A1234001A2B3C4",
   "A0FFFDFF294A1234001A2B3C4", "A1000001294A1234001A2B3C4",
   "A100000A294A1234001A2B3C4", "A100000B294A1234001A2B3C4",
   "A100000D294A1234001A2B3C4", "A100000E294A1234001A2B3C4",
   "A0FFFDF7294A1234001A2B3C4"].map String.toList

/-- Identifiers that are defined as nodes (`<id> = \x7b...\x7d;` records) in
the converter's output, in file order, under the uuid supply `u`. -/
def create_project_structure_node_ids (u : Nat → List Char) (n a : Nat) :
    List (List Char) :=
  ((List.range n).map (fun i => u (2 + i))) ++
  ((List.range n).map (fun i => u (2 + i))) ++
  [u (21 + 2 * n + a), u (22 + 2 * n + a), u (24 + 2 * n + a),
   u (2 + n), u (3 + n), u (4 + n), u (5 + n),
   u 1, u 0,
   u (32 + 2 * n + a), u (33 + 2 * n + a),
   u (34 + 2 * n + a), u (35 + 2 * n + a), u (36 + 2 * n + a),
   u (37 + 2 * n + a), u (38 + 2 * n + a), u (41 + 2 * n + a)]

/-- Identifiers referenced by fields of the converter's output, in file
order, under the uuid supply `u`. -/
def create_project_structure_ref_ids (u : Nat → List Char) (n a : Nat) :
    List (List Char) :=
  ((List.range n).map (fun i => u (2 + i))) ++
  [u (2 + n), u (23 + 2 * n + a)] ++
  [u 1] ++
  [u (3 + n), u (4 + n), u (5 + n)] ++
  ((List.range 10).map (fun i => u (6 + n + i))) ++
  ((List.range 5).map (fun i => u (16 + n + i))) ++
  ((List.range a).map (fun i => u (21 + n + i))) ++
  [u (25 + 2 * n + a), u (26 + 2 * n + a), u (27 + 2 * n + a),
   u (28 + 2 * n + a), u 1] ++
  [u 1, u (29 + 2 * n + a), u (30 + 2 * n + a), u (31 + 2 * n + a), u 1] ++
  ((List.range n).map (fun i => u (21 + n + a + i))) ++
  [u (39 + 2 * n + a), u (40 + 2 * n + a), u (42 + 2 * n + a),
   u (43 + 2 * n + a)] ++
  [u 0]

/-- C2: the hard-coded minimal document is referentially intact, but
`create_project_structure` emits dangling references: the root group's
Products child entry is a fresh draw (index c+2) while the Products
group node gets the next draw (c+3), so under the real allocator —
here the draw sequence `generate_uuid 0, generate_uuid 1, ...`, with no
Swift files so c = 21 — the referenced identifier is no node of the
document, and nothing reports the violation. -/
theorem create_project_structure_dangling_ref :
    minimal_ref_ids.all (fun i => minimal_node_ids.contains i) = true ∧
    (generate_uuid 23) ∈ create_project_structure_ref_ids generate_uuid 0 0 ∧
    (generate_uuid 23) ∉ create_project_structure_node_ids generate_uuid 0 0 := by
  refine ⟨by decide, by decide, by decide⟩

/-- C6: lines 45-48 of convert_to_xcodeproj.py reuse the one `file_uuid`
draw for the i-th PBXBuildFile record and for the PBXFileReference
record it wraps, so as soon as one Swift file exists the node identifier
list has a duplicate — under every uuid supply whatsoever, so no
allocator can repair it. -/
theorem create_project_structure_duplicate_ids (u : Nat → List Char) (a : Nat) :
    ¬ (create_project_structure_node_ids u 1 a).Nodup := by
  rw [create_project_structure_node_ids, show List.range 1 = [0] from rfl]
  simp [List.nodup_cons]

/-! ## Edge-list discipline of the two splice operations -/

/-- `SpliceEmpty opener ins s r`: `r` arises from `s` by inserting the
fixed text `ins` at zero or more positions, each lying immediately after
an edge-list opening (text ending in `opener`) whose list holds no
existing entry — nothing but a whitespace run stands before the closing
`);`.  Every character outside the insertions is preserved verbatim and
in order. -/
inductive SpliceEmpty (opener ins : List Char) : List Char → List Char → Prop where
  | refl (s : List Char) : SpliceEmpty opener ins s s
  | step (p g2 t r : List Char) (hp : ∃ b, p = b ++ opener)
      (hg2 : ∃ ws m, g2 = ws ++ parenSemiLit ++ m ∧ ws.all pyIsSpace = true)
      (hrec : SpliceEmpty opener ins t r) :
      SpliceEmpty opener ins (p ++ g2 ++ t) (p ++ ins ++ g2 ++ r)

theorem SpliceEmpty.prepend (opener ins q : List Char) {s r : List Char}
    (h : SpliceEmpty opener ins s r) :
    SpliceEmpty opener ins (q ++ s) (q ++ r) := by
  induction h with
  | refl s => exact SpliceEmpty.refl (q ++ s)
  | step p g2 t r hp hg2 hrec ih =>
    obtain ⟨b, hb⟩ := hp
    have hstep := @SpliceEmpty.step opener ins (q ++ p) g2 t r
      ⟨q ++ b, by rw [hb]; simp [List.append_assoc]⟩ hg2 hrec
    simpa [List.append_assoc] using hstep

theorem subFrameworksF_splice :
    ∀ (fuel : Nat) (s : List Char),
      SpliceEmpty filesOpenLit frameworksInsertText s (subFrameworksF fuel s) := by
  intro fuel
  induction fuel with
  | zero => intro s; exact SpliceEmpty.refl s
  | succ fuel ih =>
    intro s
    cases hf : findLit frameworksHeaderLit s with
    | none =>
      have he : subFrameworksF (fuel + 1) s = s := by
        simp only [subFrameworksF, hf]
      rw [he]
      exact SpliceEmpty.refl s
    | some pr =>
      obtain ⟨pre, rest⟩ := pr
      have hseq := findLit_some frameworksHeaderLit s pre rest hf
      cases hsf : searchFiles rest with
      | none =>
        have he : subFrameworksF (fuel + 1) s =
            pre ++ frameworksHeaderLit ++ subFrameworksF fuel rest := by
          simp only [subFrameworksF, hf, hsf]
        rw [he, hseq]
        have hpre := SpliceEmpty.prepend filesOpenLit frameworksInsertText
          (pre ++ frameworksHeaderLit) (ih rest)
        simpa [List.append_assoc] using hpre
      | some trip =>
        obtain ⟨g1r, g2, tail⟩ := trip
        have he : subFrameworksF (fuel + 1) s =
            pre ++ frameworksHeaderLit ++ g1r ++ frameworksInsertText ++ g2 ++
              subFrameworksF fuel tail := by
          simp only [subFrameworksF, hf, hsf]
        obtain ⟨hre, ⟨b, hb⟩, ws, m, hg2, hws⟩ :=
          searchFiles_some rest g1r g2 tail hsf
        rw [he, hseq, hre]
        have hstep := @SpliceEmpty.step filesOpenLit frameworksInsertText
          (pre ++ frameworksHeaderLit ++ g1r) g2 tail (subFrameworksF fuel tail)
          ⟨pre ++ frameworksHeaderLit ++ b, by rw [hb]; simp [List.append_assoc]⟩
          ⟨ws, m ++ braceSemiLit, by rw [hg2]; simp [List.append_assoc], hws⟩
          (ih tail)
        simpa [List.append_assoc] using hstep

theorem checkTailNB_some (a g2 t : List Char) (h : checkTailNB a = some (g2, t)) :
    a = g2 ++ t ∧ ∃ ws, g2 = ws ++ parenSemiLit ∧ ws.all pyIsSpace = true := by
  simp only [checkTailNB] at h
  split at h
  · rename_i hp
    simp only [Option.some.injEq, Prod.mk.injEq] at h
    obtain ⟨h1, h2⟩ := h
    subst h1; subst h2
    have hsplit : a.takeWhile pyIsSpace ++ a.dropWhile pyIsSpace = a :=
      List.takeWhile_append_dropWhile _ _
    have hpref := isPrefixOf_eq_append parenSemiLit (a.dropWhile pyIsSpace) hp
    constructor
    · conv_lhs => rw [← hsplit, hpref]
      have h2len : (a.dropWhile pyIsSpace).drop parenSemiLit.length =
          (a.dropWhile pyIsSpace).drop 2 := rfl
      rw [h2len]
      simp [List.append_assoc]
    · refine ⟨a.takeWhile pyIsSpace, rfl, ?_⟩
      rw [List.all_eq_true]
      intro x hx
      exact List.mem_takeWhile_imp hx
  · simp at h

theorem searchChildrenF_some :
    ∀ (fuel : Nat) (s g1r g2 t : List Char),
      searchChildrenF fuel s = some (g1r, g2, t) →
        s = g1r ++ g2 ++ t ∧
        (∃ b, g1r = b ++ childrenOpenLit) ∧
        (∃ ws, g2 = ws ++ parenSemiLit ∧ ws.all pyIsSpace = true) := by
  intro fuel
  induction fuel with
  | zero => intro s g1r g2 t h; simp [searchChildrenF] at h
  | succ fuel ih =>
    intro s g1r g2 t h
    simp only [searchChildrenF] at h
    split at h
    · simp at h
    · rename_i b a hf
      split at h
      · rename_i g2' t' hct
        simp only [Option.some.injEq, Prod.mk.injEq] at h
        obtain ⟨h1, h2, h3⟩ := h
        subst h1; subst h2; subst h3
        obtain ⟨hat, ws, hg2, hws⟩ := checkTailNB_some a _ _ hct
        refine ⟨?_, ⟨b, rfl⟩, ws, hg2, hws⟩
        rw [findLit_some childrenOpenLit s b a hf, hat]
        simp [List.append_assoc]
      · split at h
        · rename_i g1r' g2' t' hrec
          simp only [Option.some.injEq, Prod.mk.injEq] at h
          obtain ⟨h1, h2, h3⟩ := h
          subst h1; subst h2; subst h3
          obtain ⟨heq, ⟨b', hb'⟩, hg2⟩ := ih a g1r' g2' t' hrec
          refine ⟨?_, ⟨b ++ childrenOpenLit ++ b',
            by rw [hb']; simp [List.append_assoc]⟩, hg2⟩
          rw [findLit_some childrenOpenLit s b a hf, heq]
          simp [List.append_assoc]
        · simp at h

theorem searchChildren_some (s g1r g2 t : List Char)
    (h : searchChildren s = some (g1r, g2, t)) :
    s = g1r ++ g2 ++ t ∧
    (∃ b, g1r = b ++ childrenOpenLit) ∧
    (∃ ws, g2 = ws ++ parenSemiLit ∧ ws.all pyIsSpace = true) :=
  searchChildrenF_some (s.length + 1) s g1r g2 t h

theorem subGroupProductsF_splice :
    ∀ (fuel : Nat) (s : List Char),
      SpliceEmpty childrenOpenLit productsChildInsert s
        (subGroupProductsF fuel s) := by
  intro fuel
  induction fuel with
  | zero => intro s; exact SpliceEmpty.refl s
  | succ fuel ih =>
    intro s
    cases hf : findLit mainGroupHeaderLit s with
    | none =>
      have he : subGroupProductsF (fuel + 1) s = s := by
        simp only [subGroupProductsF, hf]
      rw [he]
      exact SpliceEmpty.refl s
    | some pr =>
      obtain ⟨pre, rest⟩ := pr
      have hseq := findLit_some mainGroupHeaderLit s pre rest hf
      cases hsf : searchChildren rest with
      | none =>
        have he : subGroupProductsF (fuel + 1) s =
            pre ++ mainGroupHeaderLit ++ subGroupProductsF fuel rest := by
          simp only [subGroupProductsF, hf, hsf]
        rw [he, hseq]
        have hpre := SpliceEmpty.prepend childrenOpenLit productsChildInsert
          (pre ++ mainGroupHeaderLit) (ih rest)
        simpa [List.append_assoc] using hpre
      | some trip =>
        obtain ⟨g1r, g2, tail⟩ := trip
        have he : subGroupProductsF (fuel + 1) s =
            pre ++ mainGroupHeaderLit ++ g1r ++ productsChildInsert ++ g2 ++
              subGroupProductsF fuel tail := by
          simp only [subGroupProductsF, hf, hsf]
        obtain ⟨hre, ⟨b, hb⟩, ws, hg2, hws⟩ :=
          searchChildren_some rest g1r g2 tail hsf
        rw [he, hseq, hre]
        have hstep := @SpliceEmpty.step childrenOpenLit productsChildInsert
          (pre ++ mainGroupHeaderLit ++ g1r) g2 tail (subGroupProductsF fuel tail)
          ⟨pre ++ mainGroupHeaderLit ++ b, by rw [hb]; simp [List.append_assoc]⟩
          ⟨ws, [], by rw [hg2]; simp, hws⟩
          (ih tail)
        simpa [List.append_assoc] using hstep

/-- The identifier on one inserted edge-list line: four tabs, then the
24-character id. -/
def idOfEntryLine (line : List Char) : List Char := (line.drop 4).take 24

/-- The identifiers of the twelve entries `replace_frameworks` splices
into a frameworks file list. -/
def addFw_insert_ids : List (List Char) :=
  (framework_files ++ package_products).map idOfEntryLine

/-- C5: both cited edge-list edits splice their fixed entry block only
into an edge list that holds no existing entry — immediately after a
`files = (` resp. `children = (` opening, with nothing but whitespace
before the closing `);` — preserving every character outside the
insertion verbatim and in order (so existing entries are never dropped,
duplicated or reordered), and the identifiers on the spliced frameworks
entries are pairwise distinct (the spliced children entry is a single
identifier, `1D60002922D4FAF6008BF43F`). -/
theorem edge_list_insertions_spec :
    (∀ s, SpliceEmpty filesOpenLit frameworksInsertText s (subFrameworks s)) ∧
    (∀ s, SpliceEmpty childrenOpenLit productsChildInsert s
      (subGroupProducts s)) ∧
    addFw_insert_ids.Nodup := by
  refine ⟨fun s => subFrameworksF_splice (s.length + 1) s,
    fun s => subGroupProductsF_splice (s.length + 1) s, by decide⟩
